import Mathlib

/-!
Shallow embedding of the funding-rate arbitrage engine
(`packages/plugin-funding-arbitrage/src`): the market-data aggregator
(`MarketDataService`), the opportunity detector
(`findArbitrageOpportunities` / `findSymbolOpportunities`), the risk
manager (`RiskManagementService`) and the paired-trade orchestrator
(`TradeExecutionService.executeArbitrageTrade`).

Conventions of the embedding:
* `Decimal` (decimal.js arbitrary-precision values) and JS `number`
  quantities are modelled as `ℚ`; timestamps as `ℤ` (milliseconds).
* A JS `Map` is modelled as an association list with `mapGet` / `mapSet`
  mirroring `Map.get` / `Map.set` (replace-in-place or append).
* Stateful methods are modelled by explicit state passing: a method that
  mutates `this` returns the new service value; a method that only reads
  `this` returns the result paired with the unchanged state.
* A `Promise` that may reject is modelled as an `Option` result supplied
  by an oracle function (`none` = the promise rejected / threw).
-/

namespace FundingArb

/-- JS `Map.get`: the value stored at key `k`, if any. -/
def mapGet {α : Type} (m : List (String × α)) (k : String) : Option α :=
  match m with
  | [] => none
  | e :: rest => if e.1 = k then some e.2 else mapGet rest k

/-- JS `Map.set`: replace the entry for `k` in place, or append it. -/
def mapSet {α : Type} (m : List (String × α)) (k : String) (v : α) :
    List (String × α) :=
  match m with
  | [] => [(k, v)]
  | e :: rest => if e.1 = k then (k, v) :: rest else e :: mapSet rest k v

/-- Position side, `"long" | "short"` in `types.ts`. -/
inductive Side where
  | long : Side
  | short : Side
deriving DecidableEq, Repr

/-- `Position` from `types.ts`: an open perpetual-futures position. -/
structure Position where
  symbol : String
  exchange : String
  side : Side
  size : ℚ
  leverage : ℚ
  entryPrice : ℚ
  unrealizedPnl : ℚ
  fundingPaid : ℚ
  openTime : ℤ
  lastUpdateTime : ℤ
deriving DecidableEq, Repr

/-- `TradeRequest` from `types.ts`. -/
structure TradeRequest where
  symbol : String
  exchange : String
  side : Side
  size : ℚ
  leverage : ℚ
  limitPrice : Option ℚ
deriving DecidableEq, Repr

/-- `MarketData` from `types.ts`. -/
structure MarketData where
  symbol : String
  exchange : String
  lastPrice : ℚ
  fundingRate : ℚ
  timestamp : ℤ
deriving DecidableEq, Repr

/-- `TradeValidation` from `RiskManagementService.ts`. -/
structure TradeValidation where
  symbol : String
  size : ℚ
  leverage : ℚ
  currentPrice : ℚ
  unrealizedPnl : ℚ
deriving DecidableEq, Repr

/-- `RiskMetrics` from `RiskManagementService.ts`; `positionsPerSymbol`
is a `Map<string, number>`. -/
structure RiskMetrics where
  totalPositions : ℕ
  totalExposure : ℚ
  maxDrawdown : ℚ
  currentDrawdown : ℚ
  positionsPerSymbol : List (String × ℕ)
deriving DecidableEq, Repr

/-- `RiskManagementConfig` from `RiskManagementService.ts`. -/
structure RiskManagementConfig where
  maxPositionSize : ℚ
  maxPositionsPerSymbol : ℕ
  maxTotalPositions : ℕ
  maxLeverage : ℚ
  maxDrawdown : ℚ
  stopLossPercentage : ℚ
  takeProfitPercentage : ℚ
  maxDrawdownPercentage : ℚ
deriving DecidableEq, Repr

/-- The private fields of the `RiskManagementService` class. -/
structure RiskManagementService where
  metrics : RiskMetrics
  maxPositionSize : ℚ
  maxPositionsPerSymbol : ℕ
  maxTotalPositions : ℕ
  maxLeverage : ℚ
  maxDrawdown : ℚ
  stopLossPercentage : ℚ
  takeProfitPercentage : ℚ
  initialBalance : ℚ
deriving DecidableEq, Repr

/-- The `RiskManagementService` constructor: the stop-loss and
take-profit percentages from the config are divided by 100, and the
metrics start out empty. -/
def mkRiskManagementService (config : RiskManagementConfig)
    (initialBalance : ℚ) : RiskManagementService :=
  { metrics :=
      { totalPositions := 0
        totalExposure := 0
        maxDrawdown := 0
        currentDrawdown := 0
        positionsPerSymbol := [] }
    maxPositionSize := config.maxPositionSize
    maxPositionsPerSymbol := config.maxPositionsPerSymbol
    maxTotalPositions := config.maxTotalPositions
    maxLeverage := config.maxLeverage
    maxDrawdown := config.maxDrawdown
    stopLossPercentage := config.stopLossPercentage / 100
    takeProfitPercentage := config.takeProfitPercentage / 100
    initialBalance := initialBalance }

/-- `RiskManagementService.calculatePotentialDrawdown`: position value
times leverage times stop-loss fraction, relative to initial balance. -/
def calculatePotentialDrawdown (s : RiskManagementService)
    (request : TradeValidation) : ℚ :=
  request.size * request.currentPrice * request.leverage *
    s.stopLossPercentage / s.initialBalance

/-- The reason logged when `validateTrade` rejects a request; one
constructor per `logger.warn` branch of the source. -/
inductive RejectReason where
  | positionSize : RejectReason
  | leverage : RejectReason
  | positionsPerSymbol : RejectReason
  | totalPositions : RejectReason
  | drawdown : RejectReason
deriving DecidableEq, Repr

/-- `RiskManagementService.validateTrade` with its logged reason made
explicit: `none` means the request passed all five checks (the method
returned `true`); `some r` identifies the first failing check, whose
warning is logged before returning `false`. -/
def validateTradeR (s : RiskManagementService) (request : TradeValidation) :
    Option RejectReason :=
  if request.size > s.maxPositionSize then some .positionSize
  else if request.leverage > s.maxLeverage then some .leverage
  else if ((mapGet s.metrics.positionsPerSymbol request.symbol).getD 0)
      ≥ s.maxPositionsPerSymbol then some .positionsPerSymbol
  else if s.metrics.totalPositions ≥ s.maxTotalPositions then
    some .totalPositions
  else if calculatePotentialDrawdown s request > s.maxDrawdown then
    some .drawdown
  else none

/-- The boolean result of `RiskManagementService.validateTrade`. -/
def validateTrade (s : RiskManagementService) (request : TradeValidation) :
    Bool :=
  (validateTradeR s request).isNone

/-- `validateTrade` as a state-passing method: the body assigns nothing
to `this`, so the state component is returned unchanged. -/
def validateTradeM (s : RiskManagementService) (request : TradeValidation) :
    Bool × RiskManagementService :=
  (validateTrade s request, s)

/-- The unrealized-PnL fraction `unrealizedPnl / (size * entryPrice)`
computed by both position predicates. -/
def pnlPercent (p : Position) : ℚ :=
  p.unrealizedPnl / (p.size * p.entryPrice)

/-- `RiskManagementService.shouldTakeProfit`. -/
def shouldTakeProfit (s : RiskManagementService) (p : Position) : Bool :=
  pnlPercent p ≥ s.takeProfitPercentage

/-- `shouldTakeProfit` as a state-passing method (reads only). -/
def shouldTakeProfitM (s : RiskManagementService) (p : Position) :
    Bool × RiskManagementService :=
  (shouldTakeProfit s p, s)

/-- `RiskManagementService.shouldStopLoss`. -/
def shouldStopLoss (s : RiskManagementService) (p : Position) : Bool :=
  pnlPercent p ≤ -s.stopLossPercentage

/-- `shouldStopLoss` as a state-passing method (reads only). -/
def shouldStopLossM (s : RiskManagementService) (p : Position) :
    Bool × RiskManagementService :=
  (shouldStopLoss s p, s)

/-- The loop body of `updateMetrics`: bump this position's per-symbol
count and add its notional exposure `size * entryPrice * leverage`. -/
def updateMetricsStep (acc : List (String × ℕ) × ℚ) (p : Position) :
    List (String × ℕ) × ℚ :=
  (mapSet acc.1 p.symbol ((mapGet acc.1 p.symbol).getD 0 + 1),
   acc.2 + p.size * p.entryPrice * p.leverage)

/-- `RiskManagementService.calculateMaxDrawdown`: the most negative
per-position `unrealizedPnl / initialBalance`, capped above by 0. -/
def calculateMaxDrawdown (s : RiskManagementService)
    (positions : List Position) : ℚ :=
  positions.foldl
    (fun m p =>
      let d := p.unrealizedPnl / s.initialBalance
      if d < m then d else m) 0

/-- `RiskManagementService.calculateCurrentDrawdown`: total unrealized
PnL over the initial balance. -/
def calculateCurrentDrawdown (s : RiskManagementService)
    (positions : List Position) : ℚ :=
  (positions.foldl (fun sum p => sum + p.unrealizedPnl) 0) / s.initialBalance

/-- `RiskManagementService.updateMetrics`: recompute the metrics
wholesale from the given position list. -/
def updateMetrics (s : RiskManagementService) (positions : List Position) :
    RiskManagementService :=
  let acc := positions.foldl updateMetricsStep ([], 0)
  { s with
    metrics :=
      { totalPositions := positions.length
        totalExposure := acc.2
        maxDrawdown := calculateMaxDrawdown s positions
        currentDrawdown := calculateCurrentDrawdown s positions
        positionsPerSymbol := acc.1 } }

/-- `RiskManagementService.getMetrics`. -/
def getMetrics (s : RiskManagementService) : RiskMetrics :=
  s.metrics

/-- Modelled from the spec: the projected-drawdown formula the spec
states for `validateTrade` (`size * leverage * stopLossPercentage /
initialBalance`), which omits the current price. -/
def potentialDrawdownSpec (s : RiskManagementService)
    (request : TradeValidation) : ℚ :=
  request.size * request.leverage * s.stopLossPercentage / s.initialBalance

/-- Modelled from the spec: the acceptance predicate the spec states for
`validateTrade` — all five limit checks pass, with the spec's
projected-drawdown formula. -/
def validateTradeSpec (s : RiskManagementService)
    (request : TradeValidation) : Bool :=
  ¬(request.size > s.maxPositionSize) ∧
  ¬(request.leverage > s.maxLeverage) ∧
  ¬(((mapGet s.metrics.positionsPerSymbol request.symbol).getD 0)
      ≥ s.maxPositionsPerSymbol) ∧
  ¬(s.metrics.totalPositions ≥ s.maxTotalPositions) ∧
  ¬(potentialDrawdownSpec s request > s.maxDrawdown)

/-- `FundingRateData` from `MarketDataService.ts`. -/
structure FundingRateData where
  symbol : String
  exchange : String
  fundingRate : ℚ
  timestamp : ℤ
deriving DecidableEq, Repr

/-- `MarketPriceData` from `MarketDataService.ts`. -/
structure MarketPriceData where
  symbol : String
  exchange : String
  price : ℚ
  timestamp : ℤ
deriving DecidableEq, Repr

/-- `ArbitrageOpportunity` from `MarketDataService.ts`. -/
structure ArbitrageOpportunity where
  symbol : String
  longExchange : String
  shortExchange : String
  fundingDiff : ℚ
  expectedProfit : ℚ
  timestamp : ℤ
deriving DecidableEq, Repr

/-- The state of `MarketDataService`: the registered exchange names (the
keys of the `connectors` map, in insertion order) and the two snapshot
maps keyed by `` `${exchange}:${symbol}` ``. -/
structure MarketDataService where
  exchanges : List String
  fundingRates : List (String × FundingRateData)
  marketPrices : List (String × MarketPriceData)
deriving DecidableEq, Repr

/-- The snapshot key `` `${exchange}:${symbol}` ``. -/
def snapKey (exchange symbol : String) : String :=
  exchange ++ ":" ++ symbol

/-- All ordered pairs `(exchanges[i], exchanges[j])` with `i < j`, in
the order of the double loop of `findSymbolOpportunities`. -/
def pairsFrom : List String → List (String × String)
  | [] => []
  | x :: rest => rest.map (fun y => (x, y)) ++ pairsFrom rest

/-- The body of `findSymbolOpportunities` for one exchange pair
`(exchange1, exchange2)`: `some` of the opportunity pushed by the loop
iteration, `none` when a snapshot is missing or a filter fails. -/
def pairOpportunity (s : MarketDataService) (symbol : String)
    (minFundingDiff minProfitThreshold : ℚ) (now : ℤ)
    (exchange1 exchange2 : String) : Option ArbitrageOpportunity :=
  match mapGet s.fundingRates (snapKey exchange1 symbol),
        mapGet s.fundingRates (snapKey exchange2 symbol),
        mapGet s.marketPrices (snapKey exchange1 symbol),
        mapGet s.marketPrices (snapKey exchange2 symbol) with
  | some fundingRate1, some fundingRate2, some price1, some price2 =>
    let fundingDiff := fundingRate1.fundingRate - fundingRate2.fundingRate
    let priceDiff := |price1.price - price2.price|
    let avgPrice := (price1.price + price2.price) / 2
    let priceDeviation := priceDiff / avgPrice
    let expectedProfit := |fundingDiff| - priceDeviation
    if |fundingDiff| > minFundingDiff ∧ expectedProfit > minProfitThreshold
    then
      some
        { symbol := symbol
          longExchange := if fundingDiff < 0 then exchange1 else exchange2
          shortExchange := if fundingDiff < 0 then exchange2 else exchange1
          fundingDiff := |fundingDiff|
          expectedProfit := expectedProfit
          timestamp := now }
    else none
  | _, _, _, _ => none

/-- `MarketDataService.findSymbolOpportunities`: the opportunities
pushed over all exchange pairs `i < j`, in loop order. -/
def findSymbolOpportunities (s : MarketDataService) (symbol : String)
    (minFundingDiff minProfitThreshold : ℚ) (now : ℤ) :
    List ArbitrageOpportunity :=
  (pairsFrom s.exchanges).filterMap
    (fun pq => pairOpportunity s symbol minFundingDiff minProfitThreshold
      now pq.1 pq.2)

/-- `MarketDataService.findArbitrageOpportunities`: concatenation of the
per-symbol results. -/
def findArbitrageOpportunities (s : MarketDataService)
    (symbols : List String) (minFundingDiff minProfitThreshold : ℚ)
    (now : ℤ) : List ArbitrageOpportunity :=
  symbols.foldl
    (fun acc symbol =>
      acc ++ findSymbolOpportunities s symbol minFundingDiff
        minProfitThreshold now) []

/-- Modelled from the spec: the spec's "synced" test for a pair of
snapshots — their ages (equivalently, their timestamps) differ by no
more than the staleness threshold. No such check exists in
`MarketDataService`; the threshold is a parameter here. -/
def syncedSpec (t1 t2 threshold : ℤ) : Bool :=
  |t1 - t2| ≤ threshold

/-- `MarketDataService.updateExchangeData` for one `(symbol, exchange)`
pair. The fetch oracle returns `some (fundingRate, marketData)` when
both connector promises resolve, `none` when either rejects; a rejection
is caught and logged, leaving both snapshot maps untouched. -/
def updateExchangeData (s : MarketDataService) (symbol exchange : String)
    (fetch : String → String → Option (ℚ × MarketData)) (now : ℤ) :
    MarketDataService :=
  match fetch symbol exchange with
  | none => s
  | some (fundingRate, marketData) =>
    let key := snapKey exchange symbol
    { s with
      fundingRates := mapSet s.fundingRates key
        { symbol := symbol
          exchange := exchange
          fundingRate := fundingRate
          timestamp := now }
      marketPrices := mapSet s.marketPrices key
        { symbol := symbol
          exchange := exchange
          price := marketData.lastPrice
          timestamp := marketData.timestamp } }

/-- The flat list of `(symbol, exchange)` pairs for which
`fetchMarketData` builds `updateExchangeData` promises, in push order. -/
def fetchPairs (symbols exchanges : List String) :
    List (String × String) :=
  match symbols with
  | [] => []
  | sym :: rest =>
    exchanges.map (fun ex => (sym, ex)) ++ fetchPairs rest exchanges

/-- `MarketDataService.fetchMarketData`: run `updateExchangeData` for
every `(symbol, exchange)` pair. Each pair's failure is caught inside
`updateExchangeData`, so the refresh as a whole always completes. -/
def fetchMarketData (s : MarketDataService) (symbols : List String)
    (fetch : String → String → Option (ℚ × MarketData)) (now : ℤ) :
    MarketDataService :=
  (fetchPairs symbols s.exchanges).foldl
    (fun st p => updateExchangeData st p.1 p.2 fetch now) s

/-- The observable outcome of one `executeArbitrageTrade` call: its
boolean result, the tracked-position map afterwards, the trade requests
actually submitted via `connector.executeTrade`, and how many trade /
error notifications were sent. -/
structure ExecResult where
  success : Bool
  positions : List (String × Position)
  executedTrades : List TradeRequest
  tradeNotifications : ℕ
  errorNotifications : ℕ
deriving DecidableEq, Repr

/-- The `TradeValidation` that `executeArbitrageTrade` builds from a
leg's request: `currentPrice` falls back to `0` without a limit price. -/
def toValidation (t : TradeRequest) : TradeValidation :=
  { symbol := t.symbol
    size := t.size
    leverage := t.leverage
    currentPrice := t.limitPrice.getD 0
    unrealizedPnl := 0 }

/-- The tracked-position key `` `${exchange}:${symbol}:long` `` (the
side suffix is the literal written in the source). -/
def longPosKey (t : TradeRequest) : String :=
  t.exchange ++ ":" ++ t.symbol ++ ":long"

/-- The tracked-position key `` `${exchange}:${symbol}:short` ``. -/
def shortPosKey (t : TradeRequest) : String :=
  t.exchange ++ ":" ++ t.symbol ++ ":short"

/-- `TradeExecutionService.executeArbitrageTrade`. Both legs are
validated; if either validation fails, or a connector is missing, the
method returns `false` before submitting anything. Otherwise both legs
are submitted concurrently via `Promise.all`; `execTrade` gives each
leg's outcome (`none` = the connector threw). Only when both resolve are
the two positions stored and the trade notification sent; if either leg
rejects, `Promise.all` rejects, the `catch` block sends one error
notification and returns `false` — the position-storing lines are never
reached. -/
def executeArbitrageTrade (risk : RiskManagementService)
    (connectorExists : String → Bool)
    (execTrade : TradeRequest → Option Position)
    (positions : List (String × Position))
    (longTrade shortTrade : TradeRequest) : ExecResult :=
  let longValid := validateTrade risk (toValidation longTrade)
  let shortValid := validateTrade risk (toValidation shortTrade)
  if ¬(longValid ∧ shortValid) then
    { success := false
      positions := positions
      executedTrades := []
      tradeNotifications := 0
      errorNotifications := 0 }
  else if ¬(connectorExists longTrade.exchange ∧
      connectorExists shortTrade.exchange) then
    { success := false
      positions := positions
      executedTrades := []
      tradeNotifications := 0
      errorNotifications := 0 }
  else
    match execTrade longTrade, execTrade shortTrade with
    | some longPosition, some shortPosition =>
      { success := true
        positions := mapSet (mapSet positions (longPosKey longTrade)
          longPosition) (shortPosKey shortTrade) shortPosition
        executedTrades := [longTrade, shortTrade]
        tradeNotifications := 1
        errorNotifications := 0 }
    | _, _ =>
      { success := false
        positions := positions
        executedTrades := [longTrade, shortTrade]
        tradeNotifications := 0
        errorNotifications := 1 }

/-! ### Association-list (JS `Map`) lemmas -/

theorem mapGet_mapSet_self {α : Type} (m : List (String × α)) (k : String)
    (v : α) : mapGet (mapSet m k v) k = some v := by
  induction m with
  | nil => simp [mapSet, mapGet]
  | cons e rest ih =>
    by_cases h : e.1 = k
    · simp [mapSet, mapGet, h]
    · simp [mapSet, mapGet, h, ih]

theorem mapGet_mapSet_ne {α : Type} (m : List (String × α)) (k k' : String)
    (v : α) (h : k' ≠ k) : mapGet (mapSet m k v) k' = mapGet m k' := by
  have hkk : ¬(k = k') := fun hh => h hh.symm
  induction m with
  | nil => simp [mapSet, mapGet, hkk]
  | cons e rest ih =>
    by_cases he : e.1 = k
    · have he' : ¬(e.1 = k') := by rw [he]; exact hkk
      simp [mapSet, mapGet, he, he', hkk]
    · by_cases he' : e.1 = k'
      · simp [mapSet, mapGet, he, he', h]
      · simp [mapSet, mapGet, he, he', ih]

theorem sum_mapSet_bump (m : List (String × ℕ)) (k : String) :
    ((mapSet m k ((mapGet m k).getD 0 + 1)).map (fun e => e.2)).sum =
      ((m.map (fun e => e.2)).sum) + 1 := by
  induction m with
  | nil => simp [mapSet, mapGet]
  | cons e rest ih =>
    by_cases h : e.1 = k
    · simp only [mapGet, mapSet, h, if_pos, Option.getD_some, List.map_cons,
        List.sum_cons]
      omega
    · simp only [mapGet, mapSet, h, if_neg, List.map_cons, List.sum_cons,
        ite_false]
      rw [ih]
      omega

/-! ### `updateMetrics` fold lemmas -/

theorem foldl_updateMetricsStep_snd (ps : List Position) :
    ∀ (m : List (String × ℕ)) (t : ℚ),
      (ps.foldl updateMetricsStep (m, t)).2 =
        t + (ps.map (fun p => p.size * p.entryPrice * p.leverage)).sum := by
  induction ps with
  | nil => intro m t; simp
  | cons p rest ih =>
    intro m t
    simp only [List.foldl_cons, updateMetricsStep, List.map_cons,
      List.sum_cons]
    rw [ih]
    ring

theorem foldl_updateMetricsStep_count (ps : List Position) :
    ∀ (m : List (String × ℕ)) (t : ℚ) (sym : String),
      (mapGet (ps.foldl updateMetricsStep (m, t)).1 sym).getD 0 =
        (mapGet m sym).getD 0 + ps.countP (fun p => p.symbol = sym) := by
  induction ps with
  | nil => intro m t sym; simp
  | cons p rest ih =>
    intro m t sym
    simp only [List.foldl_cons, updateMetricsStep, List.countP_cons]
    rw [ih]
    by_cases h : p.symbol = sym
    · rw [h, mapGet_mapSet_self]
      simp [h]
      omega
    · rw [mapGet_mapSet_ne _ _ _ _ (fun hh => h hh.symm)]
      simp [h]

theorem foldl_updateMetricsStep_sum (ps : List Position) :
    ∀ (m : List (String × ℕ)) (t : ℚ),
      (((ps.foldl updateMetricsStep (m, t)).1).map (fun e => e.2)).sum =
        (m.map (fun e => e.2)).sum + ps.length := by
  induction ps with
  | nil => intro m t; simp
  | cons p rest ih =>
    intro m t
    simp only [List.foldl_cons, updateMetricsStep, List.length_cons]
    rw [ih, sum_mapSet_bump]
    omega

theorem foldl_add_pnl (ps : List Position) :
    ∀ (t : ℚ), ps.foldl (fun sum p => sum + p.unrealizedPnl) t =
      t + (ps.map (fun p => p.unrealizedPnl)).sum := by
  induction ps with
  | nil => intro t; simp
  | cons p rest ih =>
    intro t
    simp only [List.foldl_cons, List.map_cons, List.sum_cons]
    rw [ih]
    ring

/-! ### Claim theorems: risk manager -/

/-- Claim C6: for every position list `ps`, `updateMetrics ps` followed
by `getMetrics` reflects exactly `ps`: `totalPositions` is the length of
`ps` and `totalExposure` is the sum over `ps` of
`size * entryPrice * leverage`. -/
theorem updateMetrics_getMetrics_exact (s : RiskManagementService)
    (ps : List Position) :
    (getMetrics (updateMetrics s ps)).totalPositions = ps.length ∧
    (getMetrics (updateMetrics s ps)).totalExposure =
      (ps.map (fun p => p.size * p.entryPrice * p.leverage)).sum := by
  refine ⟨rfl, ?_⟩
  show (ps.foldl updateMetricsStep ([], 0)).2 = _
  rw [foldl_updateMetricsStep_snd]
  simp

/-- Claim C7: `shouldTakeProfit` and `shouldStopLoss` are pure
predicates (their state-passing forms leave the service unchanged), both
evaluate `pnlPercent = unrealizedPnl / (size * entryPrice)`, take-profit
fires iff `pnlPercent ≥ takeProfitPercentage` and stop-loss fires iff
`pnlPercent ≤ -stopLossPercentage`. -/
theorem risk_predicates_pure (s : RiskManagementService) (p : Position) :
    (shouldTakeProfit s p = true ↔
      p.unrealizedPnl / (p.size * p.entryPrice) ≥ s.takeProfitPercentage) ∧
    (shouldStopLoss s p = true ↔
      p.unrealizedPnl / (p.size * p.entryPrice) ≤ -s.stopLossPercentage) ∧
    shouldTakeProfitM s p = (shouldTakeProfit s p, s) ∧
    shouldStopLossM s p = (shouldStopLoss s p, s) := by
  refine ⟨?_, ?_, rfl, rfl⟩ <;>
    simp [shouldTakeProfit, shouldStopLoss, pnlPercent]

/-- Claim C9: `validateTrade` mutates nothing (its state-passing form
returns the state unchanged) and is a pure function of the request and
the current `RiskMetrics` together with the configured limits: two
services agreeing on those fields validate identically. -/
theorem validateTrade_pure (s s' : RiskManagementService)
    (r : TradeValidation) (hm : s'.metrics = s.metrics)
    (h1 : s'.maxPositionSize = s.maxPositionSize)
    (h2 : s'.maxLeverage = s.maxLeverage)
    (h3 : s'.maxPositionsPerSymbol = s.maxPositionsPerSymbol)
    (h4 : s'.maxTotalPositions = s.maxTotalPositions)
    (h5 : s'.maxDrawdown = s.maxDrawdown)
    (h6 : s'.stopLossPercentage = s.stopLossPercentage)
    (h7 : s'.initialBalance = s.initialBalance) :
    validateTradeM s r = (validateTrade s r, s) ∧
    validateTrade s' r = validateTrade s r := by
  refine ⟨rfl, ?_⟩
  simp [validateTrade, validateTradeR, calculatePotentialDrawdown, hm, h1,
    h2, h3, h4, h5, h6, h7]

/-- Claim C10: after `updateMetrics ps` the stored metrics are
internally consistent: the per-symbol counts sum to `totalPositions`,
each symbol's count is the number of positions in `ps` with that symbol,
and `currentDrawdown` is the total unrealized PnL over the initial
balance. -/
theorem updateMetrics_consistent (s : RiskManagementService)
    (ps : List Position) :
    (((getMetrics (updateMetrics s ps)).positionsPerSymbol.map
        (fun e => e.2)).sum =
      (getMetrics (updateMetrics s ps)).totalPositions) ∧
    (∀ sym : String,
      (mapGet (getMetrics (updateMetrics s ps)).positionsPerSymbol
          sym).getD 0 = ps.countP (fun p => p.symbol = sym)) ∧
    (getMetrics (updateMetrics s ps)).currentDrawdown =
      (ps.map (fun p => p.unrealizedPnl)).sum / s.initialBalance := by
  refine ⟨?_, ?_, ?_⟩
  · show (((ps.foldl updateMetricsStep ([], 0)).1).map (fun e => e.2)).sum
      = ps.length
    rw [foldl_updateMetricsStep_sum]
    simp
  · intro sym
    show (mapGet (ps.foldl updateMetricsStep ([], 0)).1 sym).getD 0 = _
    rw [foldl_updateMetricsStep_count]
    simp [mapGet]
  · show calculateCurrentDrawdown s ps = _
    unfold calculateCurrentDrawdown
    rw [foldl_add_pnl]
    simp

/-! ### Concrete instances for witnesses and counterexamples -/

/-- A small risk configuration (stop-loss 10%, take-profit 20%). -/
def cfgW : RiskManagementConfig :=
  { maxPositionSize := 1000
    maxPositionsPerSymbol := 5
    maxTotalPositions := 10
    maxLeverage := 20
    maxDrawdown := 1/2
    stopLossPercentage := 10
    takeProfitPercentage := 20
    maxDrawdownPercentage := 20 }

/-- A freshly constructed risk service with initial balance 1. -/
def rmsW : RiskManagementService := mkRiskManagementService cfgW 1

/-- A validation request whose current price is 100. -/
def reqW : TradeValidation :=
  { symbol := "BTC"
    size := 1
    leverage := 1
    currentPrice := 100
    unrealizedPnl := 0 }

/-- Long leg request used in the execution scenarios. -/
def ltW : TradeRequest :=
  { symbol := "BTC"
    exchange := "binance"
    side := .long
    size := 1
    leverage := 1
    limitPrice := some 1 }

/-- Short leg request used in the execution scenarios. -/
def stW : TradeRequest :=
  { symbol := "BTC"
    exchange := "bybit"
    side := .short
    size := 1
    leverage := 1
    limitPrice := some 1 }

/-- An oversized long leg (size 2000 > maxPositionSize 1000). -/
def ltBig : TradeRequest :=
  { symbol := "BTC"
    exchange := "binance"
    side := .long
    size := 2000
    leverage := 1
    limitPrice := some 1 }

/-- The position the succeeding (long) leg's connector returns. -/
def posW : Position :=
  { symbol := "BTC"
    exchange := "binance"
    side := .long
    size := 1
    leverage := 1
    entryPrice := 1
    unrealizedPnl := 0
    fundingPaid := 0
    openTime := 0
    lastUpdateTime := 0 }

/-- An execution oracle where the binance leg succeeds and every other
leg's `executeTrade` throws. -/
def execW : TradeRequest → Option Position :=
  fun t => if t.exchange = "binance" then some posW else none

/-! ### Claim theorems: validateTrade checks (C4) -/

/-- Claim C4, counterexample: at a request with current price 100,
`validateTrade` rejects (the code's projected drawdown is
`size * currentPrice * leverage * stopLossPercentage / initialBalance`
= 10 > maxDrawdown = 1/2) while the claim's price-free formula
(`size * leverage * stopLossPercentage / initialBalance` = 1/10)
predicts acceptance. -/
theorem validateTrade_drawdown_formula_cex :
    validateTrade rmsW reqW = false ∧ validateTradeSpec rmsW reqW = true := by
  constructor <;>
    norm_num [validateTrade, validateTradeR, validateTradeSpec,
      calculatePotentialDrawdown, potentialDrawdownSpec, rmsW,
      mkRiskManagementService, cfgW, reqW, mapGet]

/-- Claim C4, amended: `validateTrade` returns `true` exactly when all
five limit checks pass, evaluated short-circuit in the fixed order, with
the projected drawdown computed as
`size * currentPrice * leverage * stopLossPercentage / initialBalance`;
the first failing check determines the logged rejection reason. -/
theorem validateTrade_checks (s : RiskManagementService)
    (r : TradeValidation) :
    (validateTrade s r = true ↔
      ¬(r.size > s.maxPositionSize) ∧
      ¬(r.leverage > s.maxLeverage) ∧
      ¬((mapGet s.metrics.positionsPerSymbol r.symbol).getD 0 ≥
          s.maxPositionsPerSymbol) ∧
      ¬(s.metrics.totalPositions ≥ s.maxTotalPositions) ∧
      ¬(calculatePotentialDrawdown s r > s.maxDrawdown)) ∧
    (validateTradeR s r = some .positionSize ↔
      r.size > s.maxPositionSize) ∧
    (validateTradeR s r = some .leverage ↔
      ¬(r.size > s.maxPositionSize) ∧ r.leverage > s.maxLeverage) ∧
    (validateTradeR s r = some .positionsPerSymbol ↔
      ¬(r.size > s.maxPositionSize) ∧ ¬(r.leverage > s.maxLeverage) ∧
      (mapGet s.metrics.positionsPerSymbol r.symbol).getD 0 ≥
        s.maxPositionsPerSymbol) ∧
    (validateTradeR s r = some .totalPositions ↔
      ¬(r.size > s.maxPositionSize) ∧ ¬(r.leverage > s.maxLeverage) ∧
      ¬((mapGet s.metrics.positionsPerSymbol r.symbol).getD 0 ≥
          s.maxPositionsPerSymbol) ∧
      s.metrics.totalPositions ≥ s.maxTotalPositions) ∧
    (validateTradeR s r = some .drawdown ↔
      ¬(r.size > s.maxPositionSize) ∧ ¬(r.leverage > s.maxLeverage) ∧
      ¬((mapGet s.metrics.positionsPerSymbol r.symbol).getD 0 ≥
          s.maxPositionsPerSymbol) ∧
      ¬(s.metrics.totalPositions ≥ s.maxTotalPositions) ∧
      calculatePotentialDrawdown s r > s.maxDrawdown) := by
  unfold validateTrade validateTradeR
  split_ifs with h1 h2 h3 h4 h5 <;> simp_all

/-! ### Claim theorems: paired-trade execution (C1, C5) -/

/-- Claim C1, counterexample: with a succeeding long leg (binance) and a
throwing short leg (bybit), both validations passing and both connectors
present, the call returns `false` and emits exactly one error
notification, but the succeeding leg's position is NOT recorded — the
tracked position map stays empty, because the storing lines come after
the rejected `Promise.all`. -/
theorem executeArbitrageTrade_partial_fail_cex :
    (executeArbitrageTrade rmsW (fun _ => true) execW [] ltW stW).success
        = false ∧
    (executeArbitrageTrade rmsW (fun _ => true) execW []
        ltW stW).errorNotifications = 1 ∧
    (executeArbitrageTrade rmsW (fun _ => true) execW [] ltW stW).positions
        = [] := by
  refine ⟨?_, ?_, ?_⟩ <;>
  · norm_num [executeArbitrageTrade, validateTrade, validateTradeR,
      calculatePotentialDrawdown, toValidation, rmsW,
      mkRiskManagementService, cfgW, ltW, stW, execW, posW, mapGet]
    decide

/-- Claim C1, amended: if exactly one leg's `executeTrade` throws while
the other succeeds (validations passing and connectors present), the
call returns `false` and emits exactly one error notification, but
NEITHER leg's position is recorded: the tracked position map is left
unchanged, even though both legs were submitted to their exchanges. -/
theorem executeArbitrageTrade_partial_fail (risk : RiskManagementService)
    (connectorExists : String → Bool)
    (execTrade : TradeRequest → Option Position)
    (positions : List (String × Position))
    (longTrade shortTrade : TradeRequest)
    (hlv : validateTrade risk (toValidation longTrade) = true)
    (hsv : validateTrade risk (toValidation shortTrade) = true)
    (hc1 : connectorExists longTrade.exchange = true)
    (hc2 : connectorExists shortTrade.exchange = true)
    (hone : (execTrade longTrade).isSome ≠ (execTrade shortTrade).isSome) :
    (executeArbitrageTrade risk connectorExists execTrade positions
        longTrade shortTrade).success = false ∧
    (executeArbitrageTrade risk connectorExists execTrade positions
        longTrade shortTrade).errorNotifications = 1 ∧
    (executeArbitrageTrade risk connectorExists execTrade positions
        longTrade shortTrade).tradeNotifications = 0 ∧
    (executeArbitrageTrade risk connectorExists execTrade positions
        longTrade shortTrade).positions = positions ∧
    (executeArbitrageTrade risk connectorExists execTrade positions
        longTrade shortTrade).executedTrades = [longTrade, shortTrade] := by
  unfold executeArbitrageTrade
  cases hl : execTrade longTrade <;> cases hs : execTrade shortTrade <;>
    simp_all

/-- Witness for the amended C1 at the concrete scenario. -/
theorem executeArbitrageTrade_partial_fail_witness :
    (executeArbitrageTrade rmsW (fun _ => true) execW [] ltW
        stW).errorNotifications = 1 ∧
    (executeArbitrageTrade rmsW (fun _ => true) execW [] ltW stW).positions
        = [] :=
  have h := executeArbitrageTrade_partial_fail rmsW (fun _ => true) execW
    [] ltW stW (by
      norm_num [validateTrade, validateTradeR, calculatePotentialDrawdown,
        toValidation, rmsW, mkRiskManagementService, cfgW, ltW, mapGet])
    (by
      norm_num [validateTrade, validateTradeR, calculatePotentialDrawdown,
        toValidation, rmsW, mkRiskManagementService, cfgW, stW, mapGet])
    rfl rfl (by decide)
  ⟨h.2.1, h.2.2.2.1⟩

/-- Claim C5: if RiskManager validation fails for either leg,
`executeArbitrageTrade` returns `false` with no trade submitted to any
connector, no notification, and the tracked position map unchanged. -/
theorem executeArbitrageTrade_validation_gate
    (risk : RiskManagementService) (connectorExists : String → Bool)
    (execTrade : TradeRequest → Option Position)
    (positions : List (String × Position))
    (longTrade shortTrade : TradeRequest)
    (h : validateTrade risk (toValidation longTrade) = false ∨
      validateTrade risk (toValidation shortTrade) = false) :
    executeArbitrageTrade risk connectorExists execTrade positions
        longTrade shortTrade =
      { success := false
        positions := positions
        executedTrades := []
        tradeNotifications := 0
        errorNotifications := 0 } := by
  unfold executeArbitrageTrade
  rcases h with h | h <;> simp [h]

/-- Witness for C5: an oversized long leg is rejected and nothing is
submitted. -/
theorem executeArbitrageTrade_validation_gate_witness :
    executeArbitrageTrade rmsW (fun _ => true) execW [] ltBig stW =
      { success := false
        positions := []
        executedTrades := []
        tradeNotifications := 0
        errorNotifications := 0 } :=
  executeArbitrageTrade_validation_gate rmsW (fun _ => true) execW []
    ltBig stW (Or.inl (by
      norm_num [validateTrade, validateTradeR, calculatePotentialDrawdown,
        toValidation, rmsW, mkRiskManagementService, cfgW, ltBig, mapGet]))

/-- Witness for C9 at a concrete service and request. -/
theorem validateTrade_pure_witness :
    validateTradeM rmsW reqW = (validateTrade rmsW reqW, rmsW) ∧
    validateTrade rmsW reqW = validateTrade rmsW reqW :=
  validateTrade_pure rmsW rmsW reqW rfl rfl rfl rfl rfl rfl rfl rfl

/-! ### Detector lemmas -/

theorem mem_pairsFrom {l : List String} {a b : String}
    (h : (a, b) ∈ pairsFrom l) : a ∈ l ∧ b ∈ l := by
  induction l with
  | nil => simp [pairsFrom] at h
  | cons x rest ih =>
    simp only [pairsFrom, List.mem_append, List.mem_map] at h
    rcases h with ⟨y, hy, hyab⟩ | h
    · injection hyab with h1 h2
      subst h1
      subst h2
      exact ⟨List.mem_cons_self _ _, List.mem_cons_of_mem _ hy⟩
    · obtain ⟨ha, hb⟩ := ih h
      exact ⟨List.mem_cons_of_mem _ ha, List.mem_cons_of_mem _ hb⟩

theorem pairsFrom_ne {l : List String} {a b : String} (hnd : l.Nodup)
    (h : (a, b) ∈ pairsFrom l) : a ≠ b := by
  induction l with
  | nil => simp [pairsFrom] at h
  | cons x rest ih =>
    obtain ⟨hx, hrest⟩ := List.nodup_cons.mp hnd
    simp only [pairsFrom, List.mem_append, List.mem_map] at h
    rcases h with ⟨y, hy, hyab⟩ | h
    · injection hyab with h1 h2
      subst h1
      subst h2
      intro hab
      apply hx
      rw [hab]
      exact hy
    · exact ih hrest h

theorem pairsFrom_no_swap {l : List String} {a b : String} (hnd : l.Nodup)
    (h : (a, b) ∈ pairsFrom l) : (b, a) ∉ pairsFrom l := by
  induction l with
  | nil => simp [pairsFrom] at h
  | cons x rest ih =>
    obtain ⟨hx, hrest⟩ := List.nodup_cons.mp hnd
    intro hswap
    simp only [pairsFrom, List.mem_append, List.mem_map] at h hswap
    rcases h with ⟨y, hy, hyab⟩ | h
    · injection hyab with h1 h2
      subst h1
      subst h2
      rcases hswap with ⟨z, hz, hzba⟩ | hswap
      · injection hzba with h3 h4
        apply hx
        rw [h3]
        exact hy
      · exact hx (mem_pairsFrom hswap).2
    · rcases hswap with ⟨z, hz, hzba⟩ | hswap
      · injection hzba with h3 h4
        subst h3
        subst h4
        exact hx (mem_pairsFrom h).2
      · exact ih hrest h hswap

/-- Characterization of the loop body of `findSymbolOpportunities` once
all four snapshots are present. -/
theorem pairOpportunity_eq (s : MarketDataService) (symbol : String)
    (minFundingDiff minProfitThreshold : ℚ) (now : ℤ)
    (exchange1 exchange2 : String) (f1 f2 : FundingRateData)
    (p1 p2 : MarketPriceData)
    (hf1 : mapGet s.fundingRates (snapKey exchange1 symbol) = some f1)
    (hf2 : mapGet s.fundingRates (snapKey exchange2 symbol) = some f2)
    (hp1 : mapGet s.marketPrices (snapKey exchange1 symbol) = some p1)
    (hp2 : mapGet s.marketPrices (snapKey exchange2 symbol) = some p2) :
    pairOpportunity s symbol minFundingDiff minProfitThreshold now
        exchange1 exchange2 =
      if |f1.fundingRate - f2.fundingRate| > minFundingDiff ∧
          |f1.fundingRate - f2.fundingRate| -
            (|p1.price - p2.price| / ((p1.price + p2.price) / 2)) >
            minProfitThreshold then
        some
          { symbol := symbol
            longExchange :=
              if f1.fundingRate - f2.fundingRate < 0 then exchange1
              else exchange2
            shortExchange :=
              if f1.fundingRate - f2.fundingRate < 0 then exchange2
              else exchange1
            fundingDiff := |f1.fundingRate - f2.fundingRate|
            expectedProfit :=
              |f1.fundingRate - f2.fundingRate| -
                (|p1.price - p2.price| / ((p1.price + p2.price) / 2))
            timestamp := now }
      else none := by
  unfold pairOpportunity
  rw [hf1, hf2, hp1, hp2]

/-- Claim C3: an opportunity the detector emits for a pair of snapshots
with `fundingRate_1 < fundingRate_2` assigns the long leg to the
exchange with the lower funding rate and the short leg to the other, its
`fundingDiff` field is non-negative, and it belongs to the output of
`findSymbolOpportunities` whenever the pair is iterated. -/
theorem detector_direction (s : MarketDataService) (symbol : String)
    (minFundingDiff minProfitThreshold : ℚ) (now : ℤ)
    (exchange1 exchange2 : String) (o : ArbitrageOpportunity)
    (f1 f2 : FundingRateData) (p1 p2 : MarketPriceData)
    (hf1 : mapGet s.fundingRates (snapKey exchange1 symbol) = some f1)
    (hf2 : mapGet s.fundingRates (snapKey exchange2 symbol) = some f2)
    (hp1 : mapGet s.marketPrices (snapKey exchange1 symbol) = some p1)
    (hp2 : mapGet s.marketPrices (snapKey exchange2 symbol) = some p2)
    (hlt : f1.fundingRate < f2.fundingRate)
    (hpo : pairOpportunity s symbol minFundingDiff minProfitThreshold now
      exchange1 exchange2 = some o) :
    o.longExchange = exchange1 ∧ o.shortExchange = exchange2 ∧
    0 ≤ o.fundingDiff ∧
    ((exchange1, exchange2) ∈ pairsFrom s.exchanges →
      o ∈ findSymbolOpportunities s symbol minFundingDiff
        minProfitThreshold now) := by
  have hmemb : (exchange1, exchange2) ∈ pairsFrom s.exchanges →
      o ∈ findSymbolOpportunities s symbol minFundingDiff
        minProfitThreshold now := by
    intro hmem
    exact List.mem_filterMap.mpr ⟨(exchange1, exchange2), hmem, hpo⟩
  rw [pairOpportunity_eq s symbol minFundingDiff minProfitThreshold now
    exchange1 exchange2 f1 f2 p1 p2 hf1 hf2 hp1 hp2] at hpo
  have hneg : f1.fundingRate - f2.fundingRate < 0 := sub_neg.mpr hlt
  split_ifs at hpo with hc
  · obtain rfl := (Option.some.injEq _ _).mp hpo
    refine ⟨?_, ?_, ?_, hmemb⟩
    · simp [hneg]
    · simp [hneg]
    · exact abs_nonneg _

/-! ### Concrete detector instances -/

/-- Funding snapshot for binance, rate −0.002, observed at time 0. -/
def frBinance : FundingRateData :=
  { symbol := "BTC"
    exchange := "binance"
    fundingRate := -(2/1000)
    timestamp := 0 }

/-- Funding snapshot for bybit, rate 0.003, observed much later. -/
def frBybit : FundingRateData :=
  { symbol := "BTC"
    exchange := "bybit"
    fundingRate := 3/1000
    timestamp := 1000000 }

/-- Price snapshot for binance. -/
def mpBinance : MarketPriceData :=
  { symbol := "BTC"
    exchange := "binance"
    price := 100
    timestamp := 0 }

/-- Price snapshot for bybit (same price, so zero price deviation). -/
def mpBybit : MarketPriceData :=
  { symbol := "BTC"
    exchange := "bybit"
    price := 100
    timestamp := 1000000 }

/-- A market-data service holding the four snapshots above, whose two
snapshot ages differ by 1000000 ms. -/
def mdsW : MarketDataService :=
  { exchanges := ["binance", "bybit"]
    fundingRates :=
      [(snapKey "binance" "BTC", frBinance), (snapKey "bybit" "BTC", frBybit)]
    marketPrices :=
      [(snapKey "binance" "BTC", mpBinance), (snapKey "bybit" "BTC", mpBybit)] }

/-- The opportunity the detector produces from `mdsW` at time 7:
fundingDiff = |−0.002 − 0.003| = 0.005, expectedProfit = 0.005. -/
def oW : ArbitrageOpportunity :=
  { symbol := "BTC"
    longExchange := "binance"
    shortExchange := "bybit"
    fundingDiff := 5/1000
    expectedProfit := 5/1000
    timestamp := 7 }

/-- The loop body of the detector on `mdsW` emits `oW` for the pair
(binance, bybit) with thresholds 0.001. -/
theorem mdsW_pairOpportunity :
    pairOpportunity mdsW "BTC" (1/1000) (1/1000) 7 "binance" "bybit" =
      some oW := by
  rw [pairOpportunity_eq mdsW "BTC" (1/1000) (1/1000) 7 "binance" "bybit"
    frBinance frBybit mpBinance mpBybit (by simp [mdsW, mapGet, snapKey])
    (by simp [mdsW, mapGet, snapKey]) (by simp [mdsW, mapGet, snapKey])
    (by simp [mdsW, mapGet, snapKey])]
  norm_num [frBinance, frBybit, mpBinance, mpBybit, oW, abs_of_nonpos]

/-- If the loop body emits an opportunity, all four snapshots for the
pair were present. -/
theorem pairOpportunity_some_snapshots (s : MarketDataService)
    (symbol : String) (minFundingDiff minProfitThreshold : ℚ) (now : ℤ)
    (a b : String) (o : ArbitrageOpportunity)
    (hpo : pairOpportunity s symbol minFundingDiff minProfitThreshold now
      a b = some o) :
    ∃ g1 g2 q1 q2,
      mapGet s.fundingRates (snapKey a symbol) = some g1 ∧
      mapGet s.fundingRates (snapKey b symbol) = some g2 ∧
      mapGet s.marketPrices (snapKey a symbol) = some q1 ∧
      mapGet s.marketPrices (snapKey b symbol) = some q2 := by
  unfold pairOpportunity at hpo
  rcases hga : mapGet s.fundingRates (snapKey a symbol) with _ | g1 <;>
    rw [hga] at hpo
  · exact absurd hpo (by simp)
  rcases hgb : mapGet s.fundingRates (snapKey b symbol) with _ | g2 <;>
    rw [hgb] at hpo
  · exact absurd hpo (by simp)
  rcases hqa : mapGet s.marketPrices (snapKey a symbol) with _ | q1 <;>
    rw [hqa] at hpo
  · exact absurd hpo (by simp)
  rcases hqb : mapGet s.marketPrices (snapKey b symbol) with _ | q2 <;>
    rw [hqb] at hpo
  · exact absurd hpo (by simp)
  exact ⟨g1, g2, q1, q2, rfl, rfl, rfl, rfl⟩

/-! ### Claim theorems: detector sync check (C2) -/

/-- Claim C2, counterexample: the detector emits an opportunity for the
(binance, bybit) pair of `mdsW` even though the timestamps of the two stored
snapshots differ by 1000000 ms — far beyond a 60000 ms staleness
threshold — so the "both snapshots are synced" conjunct of the claimed
iff is violated: `findSymbolOpportunities` performs no sync check. -/
theorem findSymbolOpportunities_no_sync_check_cex :
    oW ∈ findSymbolOpportunities mdsW "BTC" (1/1000) (1/1000) 7 ∧
    (mapGet mdsW.fundingRates (snapKey "binance" "BTC")).map
        (fun f => f.timestamp) = some 0 ∧
    (mapGet mdsW.fundingRates (snapKey "bybit" "BTC")).map
        (fun f => f.timestamp) = some 1000000 ∧
    syncedSpec 0 1000000 60000 = false := by
  refine ⟨?_, by simp [mdsW, mapGet, snapKey, frBinance, frBybit],
    by simp [mdsW, mapGet, snapKey, frBinance, frBybit], by decide⟩
  exact List.mem_filterMap.mpr
    ⟨("binance", "bybit"), by simp [mdsW, pairsFrom], mdsW_pairOpportunity⟩

/-- Claim C2, amended: for every symbol and every iterated pair of
registered exchanges with all four snapshots stored,
`findSymbolOpportunities` emits an opportunity for that pair if and only
if `|fundingDiff| > minFundingDiff` and `expectedProfit >
minProfitThreshold`, where `fundingDiff = fundingRate_1 − fundingRate_2`,
`priceDeviation = |price_1 − price_2| / avg(price_1, price_2)` and
`expectedProfit = |fundingDiff| − priceDeviation`. Snapshot ages play no
role: there is no sync/staleness condition. -/
theorem findSymbolOpportunities_emits_iff (s : MarketDataService)
    (symbol : String) (minFundingDiff minProfitThreshold : ℚ) (now : ℤ)
    (exchange1 exchange2 : String) (f1 f2 : FundingRateData)
    (p1 p2 : MarketPriceData) (hnd : s.exchanges.Nodup)
    (hpair : (exchange1, exchange2) ∈ pairsFrom s.exchanges)
    (hf1 : mapGet s.fundingRates (snapKey exchange1 symbol) = some f1)
    (hf2 : mapGet s.fundingRates (snapKey exchange2 symbol) = some f2)
    (hp1 : mapGet s.marketPrices (snapKey exchange1 symbol) = some p1)
    (hp2 : mapGet s.marketPrices (snapKey exchange2 symbol) = some p2) :
    (∃ o ∈ findSymbolOpportunities s symbol minFundingDiff
        minProfitThreshold now,
      (o.longExchange = exchange1 ∧ o.shortExchange = exchange2) ∨
      (o.longExchange = exchange2 ∧ o.shortExchange = exchange1)) ↔
    (|f1.fundingRate - f2.fundingRate| > minFundingDiff ∧
      |f1.fundingRate - f2.fundingRate| -
        (|p1.price - p2.price| / ((p1.price + p2.price) / 2)) >
        minProfitThreshold) := by
  have hkey := pairOpportunity_eq s symbol minFundingDiff
    minProfitThreshold now exchange1 exchange2 f1 f2 p1 p2 hf1 hf2 hp1 hp2
  constructor
  · rintro ⟨o, ho, hoex⟩
    obtain ⟨⟨a, b⟩, hab, hpo0⟩ := List.mem_filterMap.mp ho
    have hpo : pairOpportunity s symbol minFundingDiff minProfitThreshold
        now a b = some o := hpo0
    obtain ⟨g1, g2, q1, q2, hga, hgb, hqa, hqb⟩ :=
      pairOpportunity_some_snapshots s symbol minFundingDiff
        minProfitThreshold now a b o hpo
    rw [pairOpportunity_eq s symbol minFundingDiff minProfitThreshold now
      a b g1 g2 q1 q2 hga hgb hqa hqb] at hpo
    by_cases hcand : |g1.fundingRate - g2.fundingRate| > minFundingDiff ∧
        |g1.fundingRate - g2.fundingRate| -
          (|q1.price - q2.price| / ((q1.price + q2.price) / 2)) >
          minProfitThreshold
    swap
    · rw [if_neg hcand] at hpo
      exact absurd hpo (by simp)
    rw [if_pos hcand] at hpo
    obtain rfl := (Option.some.injEq _ _).mp hpo
    have hor : (a = exchange1 ∧ b = exchange2) ∨
        (a = exchange2 ∧ b = exchange1) := by
      rcases hoex with ⟨h1, h2⟩ | ⟨h1, h2⟩ <;>
        by_cases hsg : g1.fundingRate - g2.fundingRate < 0 <;>
          simp only [hsg, ite_true, ite_false] at h1 h2 <;> tauto
    rcases hor with ⟨rfl, rfl⟩ | ⟨hae, hbe⟩
    · rw [hf1] at hga
      rw [hf2] at hgb
      rw [hp1] at hqa
      rw [hp2] at hqb
      obtain rfl : f1 = g1 := (Option.some.injEq _ _).mp hga
      obtain rfl : f2 = g2 := (Option.some.injEq _ _).mp hgb
      obtain rfl : p1 = q1 := (Option.some.injEq _ _).mp hqa
      obtain rfl : p2 = q2 := (Option.some.injEq _ _).mp hqb
      exact hcand
    · exfalso
      subst hae
      subst hbe
      exact pairsFrom_no_swap hnd hpair hab
  · intro hcand
    refine ⟨{ symbol := symbol
              longExchange :=
                if f1.fundingRate - f2.fundingRate < 0 then exchange1
                else exchange2
              shortExchange :=
                if f1.fundingRate - f2.fundingRate < 0 then exchange2
                else exchange1
              fundingDiff := |f1.fundingRate - f2.fundingRate|
              expectedProfit :=
                |f1.fundingRate - f2.fundingRate| -
                  (|p1.price - p2.price| / ((p1.price + p2.price) / 2))
              timestamp := now }, ?_, ?_⟩
    · refine List.mem_filterMap.mpr ⟨(exchange1, exchange2), hpair, ?_⟩
      rw [hkey, if_pos hcand]
    · by_cases hsg : f1.fundingRate - f2.fundingRate < 0 <;>
        simp [hsg]

/-- Witness for the amended C2 on the concrete service `mdsW`. -/
theorem findSymbolOpportunities_emits_iff_witness :
    ∃ o ∈ findSymbolOpportunities mdsW "BTC" (1/1000) (1/1000) 7,
      (o.longExchange = "binance" ∧ o.shortExchange = "bybit") ∨
      (o.longExchange = "bybit" ∧ o.shortExchange = "binance") :=
  (findSymbolOpportunities_emits_iff mdsW "BTC" (1/1000) (1/1000) 7
    "binance" "bybit" frBinance frBybit mpBinance mpBybit (by decide)
    (by simp [mdsW, pairsFrom]) (by simp [mdsW, mapGet, snapKey])
    (by simp [mdsW, mapGet, snapKey]) (by simp [mdsW, mapGet, snapKey])
    (by simp [mdsW, mapGet, snapKey])).mpr
    (by norm_num [frBinance, frBybit, mpBinance, mpBybit, abs_of_nonpos])

/-- Witness for C3 on the concrete service `mdsW`: the lower-rate
exchange (binance, −0.002 < 0.003) takes the long leg. -/
theorem detector_direction_witness :
    oW.longExchange = "binance" ∧ oW.shortExchange = "bybit" ∧
    0 ≤ oW.fundingDiff ∧
    (("binance", "bybit") ∈ pairsFrom mdsW.exchanges →
      oW ∈ findSymbolOpportunities mdsW "BTC" (1/1000) (1/1000) 7) :=
  detector_direction mdsW "BTC" (1/1000) (1/1000) 7 "binance" "bybit" oW
    frBinance frBybit mpBinance mpBybit (by simp [mdsW, mapGet, snapKey])
    (by simp [mdsW, mapGet, snapKey]) (by simp [mdsW, mapGet, snapKey])
    (by simp [mdsW, mapGet, snapKey])
    (by norm_num [frBinance, frBybit]) mdsW_pairOpportunity

/-! ### Refresh (C8) lemmas -/

theorem fetch_foldl_preserve
    (fetch : String → String → Option (ℚ × MarketData)) (now : ℤ)
    (L : List (String × String)) :
    ∀ (s : MarketDataService) (k : String),
      (∀ p ∈ L, fetch p.1 p.2 = none ∨ snapKey p.2 p.1 ≠ k) →
      mapGet ((L.foldl (fun st p => updateExchangeData st p.1 p.2 fetch now)
          s)).fundingRates k = mapGet s.fundingRates k ∧
      mapGet ((L.foldl (fun st p => updateExchangeData st p.1 p.2 fetch now)
          s)).marketPrices k = mapGet s.marketPrices k := by
  induction L with
  | nil => intro s k _; exact ⟨rfl, rfl⟩
  | cons p rest ih =>
    intro s k hL
    have hrest : ∀ q ∈ rest, fetch q.1 q.2 = none ∨ snapKey q.2 q.1 ≠ k :=
      fun q hq => hL q (List.mem_cons_of_mem _ hq)
    have hstep : mapGet (updateExchangeData s p.1 p.2 fetch now).fundingRates
          k = mapGet s.fundingRates k ∧
        mapGet (updateExchangeData s p.1 p.2 fetch now).marketPrices k =
          mapGet s.marketPrices k := by
      rcases hL p (List.mem_cons_self _ _) with hnone | hne
      · simp [updateExchangeData, hnone]
      · cases hf : fetch p.1 p.2 with
        | none => simp [updateExchangeData, hf]
        | some v =>
          constructor <;>
            simp [updateExchangeData, hf,
              mapGet_mapSet_ne _ _ _ _ (Ne.symm hne)]
    obtain ⟨h1, h2⟩ := ih (updateExchangeData s p.1 p.2 fetch now) k hrest
    exact ⟨by rw [List.foldl_cons, h1, hstep.1],
      by rw [List.foldl_cons, h2, hstep.2]⟩

theorem fetch_foldl_sets
    (fetch : String → String → Option (ℚ × MarketData)) (now : ℤ)
    (sym ex : String) (rate : ℚ) (md : MarketData)
    (hf : fetch sym ex = some (rate, md)) (L : List (String × String)) :
    ∀ (s : MarketDataService), (sym, ex) ∈ L →
      (∀ p ∈ L, p = (sym, ex) ∨ snapKey p.2 p.1 ≠ snapKey ex sym) →
      mapGet ((L.foldl (fun st p => updateExchangeData st p.1 p.2 fetch now)
          s)).fundingRates (snapKey ex sym) =
        some { symbol := sym
               exchange := ex
               fundingRate := rate
               timestamp := now } ∧
      mapGet ((L.foldl (fun st p => updateExchangeData st p.1 p.2 fetch now)
          s)).marketPrices (snapKey ex sym) =
        some { symbol := sym
               exchange := ex
               price := md.lastPrice
               timestamp := md.timestamp } := by
  induction L with
  | nil => intro s hmem _; simp at hmem
  | cons p rest ih =>
    intro s hmem hinj
    by_cases hmemr : (sym, ex) ∈ rest
    · exact ih (updateExchangeData s p.1 p.2 fetch now) hmemr
        (fun q hq => hinj q (List.mem_cons_of_mem _ hq))
    · have hp : p = (sym, ex) := by
        rcases List.mem_cons.mp hmem with h | h
        · exact h.symm
        · exact absurd h hmemr
      subst hp
      have hset : mapGet (updateExchangeData s sym ex fetch
            now).fundingRates (snapKey ex sym) =
          some { symbol := sym
                 exchange := ex
                 fundingRate := rate
                 timestamp := now } ∧
          mapGet (updateExchangeData s sym ex fetch now).marketPrices
            (snapKey ex sym) =
          some { symbol := sym
                 exchange := ex
                 price := md.lastPrice
                 timestamp := md.timestamp } := by
        constructor <;> simp [updateExchangeData, hf, mapGet_mapSet_self]
      have hpre := fetch_foldl_preserve fetch now rest
        (updateExchangeData s sym ex fetch now) (snapKey ex sym)
        (fun q hq => by
          rcases hinj q (List.mem_cons_of_mem _ hq) with h | h
          · exact absurd (h ▸ hq) hmemr
          · exact Or.inr h)
      exact ⟨by rw [List.foldl_cons, hpre.1, hset.1],
        by rw [List.foldl_cons, hpre.2, hset.2]⟩

/-- Claim C8: a failure fetching one `(symbol, exchange)` pair is caught
and skipped — `fetchMarketData` still completes (it is a total function
of the step results), pairs whose fetch succeeded have both snapshots
overwritten with the fresh data, and a failed pair's previously stored
snapshots are left untouched. The injectivity hypothesis says no other
iterated pair collides with this pair's map key. -/
theorem fetchMarketData_partial_failure (s : MarketDataService)
    (symbols : List String)
    (fetch : String → String → Option (ℚ × MarketData)) (now : ℤ)
    (sym ex : String)
    (hmem : (sym, ex) ∈ fetchPairs symbols s.exchanges)
    (hinj : ∀ p ∈ fetchPairs symbols s.exchanges,
      p = (sym, ex) ∨ snapKey p.2 p.1 ≠ snapKey ex sym) :
    (∀ (rate : ℚ) (md : MarketData), fetch sym ex = some (rate, md) →
      mapGet (fetchMarketData s symbols fetch now).fundingRates
          (snapKey ex sym) =
        some { symbol := sym
               exchange := ex
               fundingRate := rate
               timestamp := now } ∧
      mapGet (fetchMarketData s symbols fetch now).marketPrices
          (snapKey ex sym) =
        some { symbol := sym
               exchange := ex
               price := md.lastPrice
               timestamp := md.timestamp }) ∧
    (fetch sym ex = none →
      mapGet (fetchMarketData s symbols fetch now).fundingRates
          (snapKey ex sym) = mapGet s.fundingRates (snapKey ex sym) ∧
      mapGet (fetchMarketData s symbols fetch now).marketPrices
          (snapKey ex sym) = mapGet s.marketPrices (snapKey ex sym)) := by
  constructor
  · intro rate md hf
    exact fetch_foldl_sets fetch now sym ex rate md hf
      (fetchPairs symbols s.exchanges) s hmem hinj
  · intro hf
    exact fetch_foldl_preserve fetch now (fetchPairs symbols s.exchanges)
      s (snapKey ex sym)
      (fun p hp => by
        rcases hinj p hp with h | h
        · exact Or.inl (by rw [h]; exact hf)
        · exact Or.inr h)

/-- Market data returned for the succeeding pair in the C8 scenario. -/
def mdBybitFresh : MarketData :=
  { symbol := "BTC"
    exchange := "bybit"
    lastPrice := 101
    fundingRate := 1/100
    timestamp := 3 }

/-- A fetch oracle where every binance fetch throws and every other
fetch succeeds. -/
def fetchW : String → String → Option (ℚ × MarketData) :=
  fun _ ex => if ex = "binance" then none else some (1/100, mdBybitFresh)

/-- A market-data service holding one stale binance snapshot. -/
def mdsF : MarketDataService :=
  { exchanges := ["binance", "bybit"]
    fundingRates := [(snapKey "binance" "BTC", frBinance)]
    marketPrices := [(snapKey "binance" "BTC", mpBinance)] }

/-- Witness for C8: after a refresh where binance throws and bybit
succeeds, the binance snapshots are unchanged and the bybit snapshots
are freshly written. -/
theorem fetchMarketData_partial_failure_witness :
    (mapGet (fetchMarketData mdsF ["BTC"] fetchW 5).fundingRates
        (snapKey "binance" "BTC") =
      mapGet mdsF.fundingRates (snapKey "binance" "BTC")) ∧
    (mapGet (fetchMarketData mdsF ["BTC"] fetchW 5).marketPrices
        (snapKey "binance" "BTC") =
      mapGet mdsF.marketPrices (snapKey "binance" "BTC")) ∧
    (mapGet (fetchMarketData mdsF ["BTC"] fetchW 5).fundingRates
        (snapKey "bybit" "BTC") =
      some { symbol := "BTC"
             exchange := "bybit"
             fundingRate := 1/100
             timestamp := 5 }) := by
  have hfail := fetchMarketData_partial_failure mdsF ["BTC"] fetchW 5
    "BTC" "binance" (by simp [fetchPairs, mdsF])
    (by
      intro p hp
      simp only [mdsF, fetchPairs] at hp
      simp at hp
      rcases hp with ⟨rfl, rfl⟩ | ⟨rfl, rfl⟩
      · exact Or.inl rfl
      · exact Or.inr (by simp [snapKey]))
  have hok := fetchMarketData_partial_failure mdsF ["BTC"] fetchW 5
    "BTC" "bybit" (by simp [fetchPairs, mdsF])
    (by
      intro p hp
      simp only [mdsF, fetchPairs] at hp
      simp at hp
      rcases hp with ⟨rfl, rfl⟩ | ⟨rfl, rfl⟩
      · exact Or.inr (by simp [snapKey])
      · exact Or.inl rfl)
  exact ⟨(hfail.2 rfl).1, (hfail.2 rfl).2,
    (hok.1 (1/100) mdBybitFresh rfl).1⟩

end FundingArb
